import Mathlib

/-!
Verification development for `download_podcast_episodes.py`, a single-pass
podcast episode downloader.  The Python source is shallowly embedded below:
pure string manipulation becomes Lean functions on `String`/`List Char`,
filesystem and network effects become explicit state passing over a concrete
filesystem model and a deterministic "world" (feed-parser results, HTTP
responses, OPML parse results), and Python exceptions become `Except`/error
components.  The orchestrator (`main` and its per-feed loop body) is embedded
as explicit state-threading functions that also record console reports, so
that both normal output and the point of an uncaught exception are observable.
-/

namespace Podcast

/-- Filesystem paths, as lists of path components (`pathlib.Path` joins become
list appends; podcast directory names are single components because the
sanitizer removes `/` and `\`). -/
abbrev Path := List String

/-- One filesystem node: its parent directory path, its own name, whether it
is a directory, and (for files) its content as the list of chunk sizes that
were written to it. -/
structure FSEntry where
  parent : Path
  name : String
  isDir : Bool
  content : List Nat
deriving DecidableEq, Repr

/-- A filesystem: the list of existing nodes. -/
abbrev FS := List FSEntry

def entryPath (e : FSEntry) : Path := e.parent ++ [e.name]

def pathExists (fs : FS) (p : Path) : Bool :=
  fs.any (fun e => decide (entryPath e = p))

def pathIsDir (fs : FS) (p : Path) : Bool :=
  fs.any (fun e => decide (entryPath e = p) && e.isDir)

/-- The names of the immediate children of a directory, in filesystem order. -/
def childNames (fs : FS) (p : Path) : List String :=
  (fs.filter (fun e => decide (e.parent = p))).map (fun e => e.name)

/-- Python exceptions that the embedded code can raise. -/
inductive PyErr where
  | keyError
  | valueError
  | typeError
  | nameError
  | fileNotFound
  | fileExists
  | notADirectory
  | isADirectory
  | connectionError
deriving DecidableEq, Repr

/-- Console messages printed by the program (identified by their dynamic
data; the fixed text of each message is abstracted into the constructor). -/
inductive Report where
  | malformedFeed (url : String)
  | feedKeyError (url : String)
  | dirInvalid (p : Path)
  | dirParentMissing (p : Path)
  | opmlError
  | alreadyDownloaded (filename : String)
  | downloading (filename : String)
deriving DecidableEq, Repr

/-- `pathlib.Path.iterdir()`: yields the immediate children (files and
directories alike); raises `FileNotFoundError` if the path does not exist and
`NotADirectoryError` if it exists but is not a directory. -/
def iterdir (fs : FS) (p : Path) : Except PyErr (List String) :=
  if pathIsDir fs p then .ok (childNames fs p)
  else if pathExists fs p then .error .notADirectory
  else .error .fileNotFound

/-- `pathlib.Path.mkdir()` (no `parents`, no `exist_ok`): raises
`FileExistsError` if the path exists, `FileNotFoundError` if the parent is
missing, `NotADirectoryError` if the parent exists but is not a directory. -/
def mkdir (fs : FS) (p : Path) : Except PyErr FS :=
  if pathExists fs p then .error .fileExists
  else
    match p.getLast? with
    | some nm =>
      if pathIsDir fs p.dropLast then .ok (fs ++ [⟨p.dropLast, nm, true, []⟩])
      else if pathExists fs p.dropLast then .error .notADirectory
      else .error .fileNotFound
    | none => .error .fileNotFound

/-- `open(path, 'wb')` under a context manager: creates the file or truncates
an existing one; raises `FileNotFoundError` when the containing directory is
missing and `IsADirectoryError` when the path is a directory. -/
def openWrite (fs : FS) (p : Path) : Except PyErr FS :=
  match p.getLast? with
  | some nm =>
    if pathIsDir fs p then .error .isADirectory
    else if pathExists fs p then
      .ok (fs.map (fun e => if decide (entryPath e = p) then { e with content := [] } else e))
    else if pathIsDir fs p.dropLast then .ok (fs ++ [⟨p.dropLast, nm, false, []⟩])
    else .error .fileNotFound
  | none => .error .fileNotFound

/-- `f.write(chunk)`: append one chunk (recorded by its size) to the file. -/
def writeChunk (fs : FS) (p : Path) (c : Nat) : FS :=
  fs.map (fun e => if decide (entryPath e = p) then { e with content := e.content ++ [c] } else e)

/-- The chunk list of the file at `p`, when it exists. -/
def fileContent (fs : FS) (p : Path) : Option (List Nat) :=
  (fs.find? (fun e => decide (entryPath e = p))).map (fun e => e.content)

/-- The `unaccepted` blacklist of `format_text`. -/
def unaccepted : List Char :=
  [':', '-', '?', '+', '@', ',', '|', '[', ']', '\"', '>', '<', '/', '\\', '*', '#', '%', '^']

/-- `text.replace(element, '')` for a single-character `element`: removes
every occurrence. -/
def removeChar (l : List Char) (c : Char) : List Char :=
  l.filter (fun x => decide (x ≠ c))

/-- The loop of `format_text`: `for char in text` iterates over the original
string (the iterator is fixed at loop entry), while `text` is rebound by each
`replace`; a character equal to some blacklist element triggers a global
`replace` of that element by the empty string. -/
def format_text_list (l : List Char) : List Char :=
  l.foldl (fun text char => if char ∈ unaccepted then removeChar text char else text) l

/-- `format_text`: strip unacceptable characters from a title. -/
def format_text (s : String) : String := String.mk (format_text_list s.data)

/-- `format_title`: curated overrides for three known malformed feed titles. -/
def format_title (title : String) : String :=
  if title = "At Liberty Podcast  American Civil Liberties Union" then
    "At Liberty Podcast American Civil Liberties Union"
  else if title = "Darknet Diaries Bonus Episodes" then
    "Darknet Diaries"
  else if title = "Fireside Podcast – HeadStuff" then
    "Fireside Podcast"
  else title

/-- `check_directory`: `True` when the path is a directory, `None` otherwise
(modelled as `Bool`; the caller only tests the result against `None`). -/
def check_directory (fs : FS) (directory : Path) : Bool := pathIsDir fs directory

/-- `make_directory`: `mkdir` with `NotADirectoryError` and
`FileNotFoundError` caught and reported; any other exception (for instance
`FileExistsError`) propagates. -/
def make_directory (fs : FS) (absolute_path : Path) : Except PyErr (FS × List Report) :=
  match mkdir fs absolute_path with
  | .ok fs' => .ok (fs', [])
  | .error .notADirectory => .ok (fs, [.dirInvalid absolute_path])
  | .error .fileNotFound => .ok (fs, [.dirParentMissing absolute_path])
  | .error e => .error e

/-- `map_files`: builds `file_list` by appending each child's name from
`directory.iterdir()`; the `iterdir` exception, if any, propagates. -/
def map_files (fs : FS) (directory : Path) : Except PyErr (List String) :=
  match iterdir fs directory with
  | .error e => .error e
  | .ok children => .ok (children.foldl (fun file_list child => file_list ++ [child]) [])

/-- One link of a feed entry: its media type and its `href`. -/
structure Link where
  type : String
  href : String
deriving DecidableEq, Repr

/-- One feed entry (episode): title and links. -/
structure Entry where
  title : String
  links : List Link
deriving DecidableEq, Repr

/-- A parsed feed: the feed-level title (`feed['feed']['title']`, absent when
the lookup would raise `KeyError`) and the entries. -/
structure Feed where
  title : Option String
  entries : List Entry
deriving DecidableEq, Repr

/-- Python `dict` assignment `d[k] = v` on a dict represented as its
insertion-ordered item list: replace the value in place when the key is
present, append otherwise. -/
def dictInsert (d : List (String × String)) (k v : String) : List (String × String) :=
  if d.any (fun p => decide (p.1 = k)) then
    d.map (fun p => if decide (p.1 = k) then (p.1, v) else p)
  else d ++ [(k, v)]

/-- `generate_podcast_episode_urls`: for each entry and each of its links
with media type `audio/mpeg`, insert `href ↦ format_text(title) + ".mp3"`
into `episode_dict`. -/
def generate_podcast_episode_urls (feed_dict : Feed) : List (String × String) :=
  feed_dict.entries.foldl (fun episode_dict episode =>
    episode.links.foldl (fun d link =>
      if link.type = "audio/mpeg" then
        dictInsert d link.href (format_text episode.title ++ ".mp3")
      else d) episode_dict) []

/-- An HTTP response: the `Content-Length` header (already as a number; the
`int()` conversion is assumed to succeed whenever the header is present) and
the body as the chunk sizes that `iter_content(chunk_size=32768)` yields. -/
structure HTTPResponse where
  contentLength : Option Nat
  chunks : List Nat
deriving DecidableEq, Repr

/-- The deterministic external world of one run: the feed parser's result per
feed URL (`none` = malformed/unreachable feed), the HTTP response per episode
URL (absent = connection failure), and the OPML parser's result for the given
file to be imported (`none` = parse exception). -/
structure World where
  feeds : List (String × Feed)
  responses : List (String × HTTPResponse)
  opmlOutline : Option (List (List String))
deriving Repr

def assocFind {α : Type} (l : List (String × α)) (k : String) : Option α :=
  (l.find? (fun p => decide (p.1 = k))).map (fun p => p.2)

/-- `parse_rss_url`: `feedparser.parse` is the world's feed map; the source
returns the feed when it is not `None` and `None` otherwise. -/
def parse_rss_url (world : World) (rss_url : String) : Option Feed :=
  match assocFind world.feeds rss_url with
  | some feed => some feed
  | none => none

/-- `requests.get(url)`: the world's response map; a URL with no response
raises a connection error. -/
def requests_get (world : World) (url : String) : Except PyErr HTTPResponse :=
  match assocFind world.responses url with
  | some response => .ok response
  | none => .error .connectionError

/-- `download_episode`: print the INFO line, `requests.get` the URL, read
`int(response.headers["Content-Length"])` (a missing header raises
`KeyError`), open the output file, and write every chunk that
`iter_content(chunk_size=32768)` yields.  The loop body writes each chunk
unconditionally; `done_event` is in scope (as in the source, where it is a
module global) but is never consulted. -/
def download_episode (world : World) (done_event : Bool) (fs : FS)
    (download_path : Path) (filename url : String) : List Report × Except PyErr FS :=
  let reports := [Report.downloading filename]
  match requests_get world url with
  | .error e => (reports, .error e)
  | .ok response =>
    match response.contentLength with
    | none => (reports, .error .keyError)
    | some _content_size =>
      match openWrite fs download_path with
      | .error e => (reports, .error e)
      | .ok f =>
        (reports, .ok (response.chunks.foldl (fun f chunk => writeChunk f download_path chunk) f))

/-- The reconciliation loop of `main`: build `new_episodes` from `episodes`,
skipping items whose filename is in `existing_files` and reporting each skip
when `warnings` is set. -/
def reconcile (warnings : Bool) (episodes : List (String × String))
    (existing_files : List String) : List (String × String) × List Report :=
  episodes.foldl (fun acc item =>
    if item.2 ∈ existing_files then
      (acc.1, if warnings then acc.2 ++ [Report.alreadyDownloaded item.2] else acc.2)
    else
      (dictInsert acc.1 item.1 item.2, acc.2)) ([], [])

/-- `parse_outlines`: append every entry's `xmlUrl` from every outline group. -/
def parse_outlines (outline : List (List String)) : List String :=
  outline.foldl (fun podcasts outlines =>
    outlines.foldl (fun p outline_entry => p ++ [outline_entry]) podcasts) []

/-- `parse_opml`: any parse exception is caught, reported, and turned into
`None`; otherwise the outline is flattened with `parse_outlines`. -/
def parse_opml (world : World) : List Report × Option (List String) :=
  match world.opmlOutline with
  | none => ([.opmlError], none)
  | some outline => ([], some (parse_outlines outline))

/-- The mutable state of `main`'s feed loop: the filesystem, the console
transcript so far, and the current value of the Python local
`podcast_directory_name` (which persists across loop iterations and is
`none` while still unbound). -/
structure LoopState where
  fs : FS
  reports : List Report
  lastTitle : Option String
deriving DecidableEq, Repr

/-- The download loop at the end of `main`'s feed iteration: download each
new episode into `podcast_absolute_path / filename`; an exception from
`download_episode` is uncaught and aborts the run. -/
def downloadLoop (world : World) (done_event : Bool) (podcast_absolute_path : Path) :
    List (String × String) → LoopState → LoopState × Option PyErr
  | [], st => (st, none)
  | item :: rest, st =>
    match download_episode world done_event st.fs (podcast_absolute_path ++ [item.2]) item.2 item.1 with
    | (rs, .error e) => ({ st with reports := st.reports ++ rs }, some e)
    | (rs, .ok fs') =>
      downloadLoop world done_event podcast_absolute_path rest
        { st with fs := fs', reports := st.reports ++ rs }

/-- One iteration of `main`'s feed loop.  A `None` feed is reported and the
loop continues.  The `KeyError` on a missing feed title is caught and
reported, but execution then falls through to `format_text(podcast_directory_name)`
with the variable unchanged: unbound (`NameError`) on its first use, the
previous feed's title otherwise.  A directory that does not exist is created
with `make_directory` (whose caught failures only report), then `map_files`
lists it — an exception there is uncaught. -/
def processPodcast (world : World) (done_event : Bool) (parent_directory : Path)
    (warnings : Bool) (podcast : String) (st : LoopState) : LoopState × Option PyErr :=
  match parse_rss_url world podcast with
  | none => ({ st with reports := st.reports ++ [Report.malformedFeed podcast] }, none)
  | some feed =>
    let st₁ :=
      match feed.title with
      | some t => { st with lastTitle := some t }
      | none => { st with reports := st.reports ++ [Report.feedKeyError podcast] }
    match st₁.lastTitle with
    | none => (st₁, some .nameError)
    | some podcast_directory_name =>
      let tmp_directory := format_text podcast_directory_name
      let podcast_directory := format_title tmp_directory
      let podcast_absolute_path := parent_directory ++ [podcast_directory]
      let mkres : LoopState × Option PyErr :=
        if check_directory st₁.fs podcast_absolute_path then (st₁, none)
        else
          match make_directory st₁.fs podcast_absolute_path with
          | .ok (fs', rs) => ({ st₁ with fs := fs', reports := st₁.reports ++ rs }, none)
          | .error e => (st₁, some e)
      match mkres with
      | (st₂, some e) => (st₂, some e)
      | (st₂, none) =>
        match map_files st₂.fs podcast_absolute_path with
        | .error e => (st₂, some e)
        | .ok existing_files =>
          let episodes := generate_podcast_episode_urls feed
          let (new_episodes, rs) := reconcile warnings episodes existing_files
          downloadLoop world done_event podcast_absolute_path new_episodes
            { st₂ with reports := st₂.reports ++ rs }

/-- `main`'s feed loop: process each podcast URL in order; an uncaught
exception in one iteration aborts the remaining iterations. -/
def runFeeds (world : World) (done_event : Bool) (parent_directory : Path) (warnings : Bool) :
    List String → LoopState → LoopState × Option PyErr
  | [], st => (st, none)
  | podcast :: rest, st =>
    match processPodcast world done_event parent_directory warnings podcast st with
    | (st', some e) => (st', some e)
    | (st', none) => runFeeds world done_event parent_directory warnings rest st'

/-- The hardcoded default feed list. -/
def default_podcasts : List String :=
  [ "https://www.patreon.com/rss/darknetdiaries?auth=AGjk3H83-m6SXXOSdN1Ewt3QuIrvU0i6",
    "https://darknetdiaries.com/feedfree.xml",
    "https://realpython.com/podcasts/rpp/feed",
    "https://feeds.megaphone.fm/darknetdiaries",
    "https://feeds.eff.org/howtofixtheinternet",
    "https://malicious.life/feed/podcast/",
    "https://headstuff.org/tag/fireside-podcast/feed/",
    "https://www.aclu.org/podcast/feed/",
    "https://feeds.soundcloud.com/users/soundcloud:users:40330678/sounds.rss",
    "http://www.2600.com/oth-broadband.xml" ]

/-- The outcome of a run of `main`: early `sys.exit(1)` on an invalid parent
directory, or the final loop state together with the uncaught exception that
ended the run, if any. -/
inductive MainResult where
  | exitInvalidDir
  | run (st : LoopState) (err : Option PyErr)
deriving DecidableEq, Repr

/-- `main`: validate the parent directory; resolve the source list (an OPML
file is imported when requested, the default list otherwise); a `None` source list is
iterated anyway, raising `TypeError`; then run the feed loop. -/
def main (world : World) (done_event : Bool) (initFS : FS) (parent_directory : Path)
    (warnings : Bool) (has_import : Bool) : MainResult :=
  if ¬ check_directory initFS parent_directory then .exitInvalidDir
  else
    let (rs, podcasts) :=
      if has_import then parse_opml world else ([], some default_podcasts)
    let st₀ : LoopState := ⟨initFS, rs, none⟩
    match podcasts with
    | none => .run st₀ (some .typeError)
    | some ps =>
      let (st, e) := runFeeds world done_event parent_directory warnings ps st₀
      .run st e

/-! ### Derived views of the extractor, and concrete fixtures -/

/-- The audio links of one entry as URL/filename pairs, in link order. -/
def linkPairs (episode : Entry) : List (String × String) :=
  (episode.links.filter (fun link => decide (link.type = "audio/mpeg"))).map
    (fun link => (link.href, format_text episode.title ++ ".mp3"))

/-- All audio-link pairs of a feed, in entry order then link order. -/
def audioPairs (feed : Feed) : List (String × String) :=
  (feed.entries.map linkPairs).flatten

/-- Folding `dictInsert` over a pair list. -/
def dictFold (d : List (String × String)) (ps : List (String × String)) :
    List (String × String) :=
  ps.foldl (fun d p => dictInsert d p.1 p.2) d

/-- A feed with two entries whose audio links share the same `href`. -/
def collisionFeed : Feed :=
  ⟨some "Pod", [⟨"A", [⟨"audio/mpeg", "u"⟩]⟩, ⟨"B", [⟨"audio/mpeg", "u"⟩]⟩]⟩

/-- A feed with one entry carrying one text link and one audio link. -/
def simpleFeed : Feed :=
  ⟨some "Pod", [⟨"E", [⟨"text/html", "h"⟩, ⟨"audio/mpeg", "u"⟩]⟩]⟩

def c2eps : List (String × String) := [("url1", "A.mp3"), ("url2", "B.mp3")]

def c10fs : FS :=
  [⟨[], "P", true, []⟩, ⟨["P"], "Pod", true, []⟩, ⟨["P", "Pod"], "X.mp3", true, []⟩]

def c10entry : FSEntry := ⟨["P", "Pod"], "X.mp3", true, []⟩

/-- A parent directory `P` containing one podcast directory `T`. -/
def fsPT : FS := [⟨[], "P", true, []⟩, ⟨["P"], "T", true, []⟩]

/-- A parent directory `P` only. -/
def fsP : FS := [⟨[], "P", true, []⟩]

/-- Fixture for C1: a response of two full 32 KiB chunks. -/
def c1Resp : HTTPResponse := ⟨some 65536, [32768, 32768]⟩

def c1World : World := ⟨[], [("u", c1Resp)], none⟩

def c1FS : FS := [⟨[], "P", true, []⟩, ⟨["P"], "Pod", true, []⟩]

/-- Fixture for C5: two well-formed feeds with no entries. -/
def c5World : World := ⟨[("f", ⟨some "T", []⟩), ("g", ⟨some "G", []⟩)], [], none⟩

/-- Fixture for C6: one feed with two audio episodes; the response for the first
episode has no `Content-Length` header. -/
def c6Feed : Feed := ⟨some "T", [⟨"E1", [⟨"audio/mpeg", "u1"⟩]⟩, ⟨"E2", [⟨"audio/mpeg", "u2"⟩]⟩]⟩

def c6World : World := ⟨[("f", c6Feed)], [("u1", ⟨none, [1]⟩), ("u2", ⟨some 1, [1]⟩)], none⟩

/-- Fixture for C7: feed `a` is well-formed with title `T1` and no entries; feed
`b` parses but has no feed-level title and carries one audio episode. -/
def c7World : World :=
  ⟨[("a", ⟨some "T1", []⟩), ("b", ⟨none, [⟨"Eb", [⟨"audio/mpeg", "ub"⟩]⟩]⟩)],
   [("ub", ⟨some 5, [5]⟩)], none⟩

/-- Fixture for C8: a world whose OPML import fails to parse. -/
def c8World : World := ⟨[], [], none⟩

/-! ### Characterization of the sanitizer -/

/-- The `format_text` loop, folded over any blacklist-iteration list `L`
starting from any accumulator `s`, removes from `s` exactly the characters
that are blacklisted and occur in `L`. -/
theorem format_text_fold_eq (L : List Char) :
    ∀ s : List Char,
      L.foldl (fun text char => if char ∈ unaccepted then removeChar text char else text) s
        = s.filter (fun x => !(decide (x ∈ unaccepted) && decide (x ∈ L))) := by
  induction L with
  | nil =>
    intro s
    simp
  | cons c L ih =>
    intro s
    rw [List.foldl_cons]
    by_cases hc : c ∈ unaccepted
    · rw [if_pos hc]
      rw [ih (removeChar s c)]
      unfold removeChar
      rw [List.filter_filter]
      apply List.filter_congr
      intro x _
      by_cases hxc : x = c
      · subst hxc; simp [hc]
      · simp [hxc, List.mem_cons]
    · rw [if_neg hc]
      rw [ih s]
      apply List.filter_congr
      intro x _
      by_cases hxc : x = c
      · subst hxc; simp [hc]
      · simp [hxc, List.mem_cons]

/-- `format_text` keeps exactly the non-blacklisted characters, in order. -/
theorem format_text_list_eq_filter (l : List Char) :
    format_text_list l = l.filter (fun c => decide (c ∉ unaccepted)) := by
  unfold format_text_list
  rw [format_text_fold_eq]
  apply List.filter_congr
  intro x hx
  simp [hx]

theorem countP_not_eq_sub (l : List Char) (p : Char → Bool) :
    l.countP (fun c => !(p c)) = l.length - l.countP p := by
  induction l with
  | nil => simp
  | cons c t ih =>
    have h1 : t.countP p ≤ t.length := List.countP_le_length p
    by_cases hc : p c
    · simp [List.countP_cons, hc, ih]
    · simp [List.countP_cons, hc, ih]
      omega

/-- Claim C4: for every input string containing a blacklisted character, the
sanitizer's output contains none of the blacklist characters and its length
is the input length minus the number of blacklisted-character occurrences;
an input with no blacklisted character is returned unchanged. -/
theorem c4_sanitizer_removes_blacklist (s : String) :
    ((∃ c ∈ s.data, c ∈ unaccepted) →
      (∀ c ∈ (format_text s).data, c ∉ unaccepted) ∧
      (format_text s).length
        = s.length - s.data.countP (fun c => decide (c ∈ unaccepted)))
    ∧ ((∀ c ∈ s.data, c ∉ unaccepted) → format_text s = s) := by
  have hdata : (format_text s).data = s.data.filter (fun c => decide (c ∉ unaccepted)) :=
    format_text_list_eq_filter s.data
  constructor
  · intro _
    constructor
    · intro c hc
      rw [hdata] at hc
      have := (List.mem_filter.mp hc).2
      simpa using this
    · have hlen : (format_text s).length = (format_text s).data.length := rfl
      rw [hlen, hdata]
      rw [← List.countP_eq_length_filter]
      have hnot : s.data.countP (fun c => decide (c ∉ unaccepted))
          = s.data.countP (fun c => !(decide (c ∈ unaccepted))) := by
        simp
      rw [hnot, countP_not_eq_sub]
      rfl
  · intro h
    have : format_text_list s.data = s.data := by
      rw [format_text_list_eq_filter]
      apply List.filter_eq_self.mpr
      intro a ha
      simpa using h a ha
    show String.mk (format_text_list s.data) = s
    rw [this]

/-- Witness for C4 at the concrete input `"a:b"`. -/
theorem c4_witness :
    (∀ c ∈ (format_text "a:b").data, c ∉ unaccepted) ∧
    (format_text "a:b").length
      = ("a:b" : String).length
          - ("a:b" : String).data.countP (fun c => decide (c ∈ unaccepted)) :=
  (c4_sanitizer_removes_blacklist "a:b").1 ⟨':', by decide, by decide⟩

/-- Claim C9: the sanitizer is idempotent. -/
theorem c9_sanitizer_idempotent (s : String) :
    format_text (format_text s) = format_text s := by
  show String.mk (format_text_list (format_text_list s.data))
      = String.mk (format_text_list s.data)
  apply congrArg
  rw [format_text_list_eq_filter s.data, format_text_list_eq_filter]
  apply List.filter_eq_self.mpr
  intro a ha
  exact (List.mem_filter.mp ha).2

/-! ### Dict-update and reconciliation lemmas -/

/-- `dictInsert` with a key not yet present appends the pair. -/
theorem dictInsert_fresh (d : List (String × String)) (k v : String)
    (h : k ∉ d.map Prod.fst) : dictInsert d k v = d ++ [(k, v)] := by
  have hfalse : ¬ d.any (fun p => decide (p.1 = k)) = true := by
    simp only [List.any_eq_true, decide_eq_true_eq]
    rintro ⟨p, hp, hpk⟩
    exact h (hpk ▸ List.mem_map_of_mem Prod.fst hp)
  unfold dictInsert
  rw [if_neg hfalse]

/-- `dictInsert` preserves a property of the stored values as long as the
newly written value satisfies it. -/
theorem dictInsert_forall_snd {P : String → Prop} (d : List (String × String)) (k v : String)
    (hd : ∀ q ∈ d, P q.2) (hv : P v) : ∀ q ∈ dictInsert d k v, P q.2 := by
  intro q hq
  unfold dictInsert at hq
  by_cases hany : d.any (fun p => decide (p.1 = k)) = true
  · rw [if_pos hany] at hq
    obtain ⟨p, hp, hpq⟩ := List.mem_map.mp hq
    split at hpq
    · rw [← hpq]
      exact hv
    · rw [← hpq]
      exact hd p hp
  · rw [if_neg hany] at hq
    rcases List.mem_append.mp hq with h1 | h2
    · exact hd q h1
    · rw [List.mem_singleton.mp h2]
      exact hv

/-- Every value stored by the reconciliation loop is a filename that was not
in the existing-file list. -/
theorem reconcile_fold_snd (ex : List String) (w : Bool) :
    ∀ (eps : List (String × String)) (acc : List (String × String) × List Report),
      (∀ q ∈ acc.1, q.2 ∉ ex) →
      ∀ q ∈ (eps.foldl (fun acc item =>
          if item.2 ∈ ex then
            (acc.1, if w then acc.2 ++ [Report.alreadyDownloaded item.2] else acc.2)
          else
            (dictInsert acc.1 item.1 item.2, acc.2)) acc).1, q.2 ∉ ex := by
  intro eps
  induction eps with
  | nil =>
    intro acc hacc
    simpa using hacc
  | cons item rest ih =>
    intro acc hacc
    rw [List.foldl_cons]
    by_cases hmem : item.2 ∈ ex
    · rw [if_pos hmem]
      exact ih _ hacc
    · rw [if_neg hmem]
      exact ih _ (fun q hq =>
        dictInsert_forall_snd (P := fun fn => fn ∉ ex) acc.1 item.1 item.2 hacc hmem q hq)

theorem reconcile_mem_snd (w : Bool) (eps : List (String × String)) (ex : List String) :
    ∀ q ∈ (reconcile w eps ex).1, q.2 ∉ ex := by
  unfold reconcile
  exact reconcile_fold_snd ex w eps ([], []) (by simp)

/-- The reconciliation loop, from any accumulator whose keys are disjoint
from the (duplicate-free) keys still to be processed, appends exactly the
items whose filename is absent and one notice per skipped item when the
warnings flag is set. -/
theorem reconcile_fold_eq (ex : List String) (w : Bool) :
    ∀ (eps : List (String × String)) (acc : List (String × String) × List Report),
      (eps.map Prod.fst).Nodup →
      (∀ k ∈ acc.1.map Prod.fst, k ∉ eps.map Prod.fst) →
      eps.foldl (fun acc item =>
          if item.2 ∈ ex then
            (acc.1, if w then acc.2 ++ [Report.alreadyDownloaded item.2] else acc.2)
          else
            (dictInsert acc.1 item.1 item.2, acc.2)) acc
        = (acc.1 ++ eps.filter (fun it => decide (it.2 ∉ ex)),
           acc.2 ++ if w then (eps.filter (fun it => decide (it.2 ∈ ex))).map
              (fun it => Report.alreadyDownloaded it.2) else []) := by
  intro eps
  induction eps with
  | nil =>
    intro acc _ _
    simp
  | cons item rest ih =>
    intro acc hnd hdisj
    rw [List.map_cons] at hnd
    obtain ⟨hhead, htail⟩ := List.nodup_cons.mp hnd
    rw [List.foldl_cons]
    by_cases hmem : item.2 ∈ ex
    · rw [if_pos hmem]
      rw [ih (acc.1, if w then acc.2 ++ [Report.alreadyDownloaded item.2] else acc.2) htail
        (fun k hk hr => hdisj k hk (List.mem_cons_of_mem _ hr))]
      cases w <;> simp [List.filter_cons, hmem]
    · rw [if_neg hmem]
      have hfresh : item.1 ∉ acc.1.map Prod.fst :=
        fun hk => (hdisj item.1 hk) (by simp)
      rw [dictInsert_fresh acc.1 item.1 item.2 hfresh]
      rw [ih (acc.1 ++ [(item.1, item.2)], acc.2) htail ?_]
      · simp [List.filter_cons, hmem]
      · intro k hk
        rcases List.mem_append.mp (by simpa using hk : k ∈ acc.1.map Prod.fst ++ [item.1]) with h1 | h2
        · intro hr
          exact hdisj k h1 (List.mem_cons_of_mem _ hr)
        · rw [List.mem_singleton.mp h2]
          intro hr
          exact hhead (by simpa using hr)

/-- `reconcile` in closed form, for episode mappings with distinct URLs. -/
theorem reconcile_eq (w : Bool) (eps : List (String × String)) (ex : List String)
    (h : (eps.map Prod.fst).Nodup) :
    reconcile w eps ex
      = (eps.filter (fun it => decide (it.2 ∉ ex)),
         if w then (eps.filter (fun it => decide (it.2 ∈ ex))).map
            (fun it => Report.alreadyDownloaded it.2) else []) := by
  unfold reconcile
  rw [reconcile_fold_eq ex w eps ([], []) h (by simp)]
  simp

/-- Claim C2: reconciliation includes a pair exactly when its filename is not in
the existing set, and skipped pairs are logged exactly when the warnings
flag is set (one notice per skipped pair, none otherwise). -/
theorem c2_reconciliation (w : Bool) (eps : List (String × String)) (ex : List String)
    (h : (eps.map Prod.fst).Nodup) :
    (∀ url fn, (url, fn) ∈ (reconcile w eps ex).1 ↔ ((url, fn) ∈ eps ∧ fn ∉ ex))
    ∧ (reconcile w eps ex).2
        = (if w then (eps.filter (fun it => decide (it.2 ∈ ex))).map
            (fun it => Report.alreadyDownloaded it.2) else []) := by
  rw [reconcile_eq w eps ex h]
  constructor
  · intro url fn
    simp [List.mem_filter]
  · rfl

/-- Witness for C2 at the concrete scenario of the claim: existing files
`{A.mp3}`, episodes `{url1 ↦ A.mp3, url2 ↦ B.mp3}`, warnings on. -/
theorem c2_witness :
    (("url2", "B.mp3") ∈ (reconcile true c2eps ["A.mp3"]).1
      ∧ ("url1", "A.mp3") ∉ (reconcile true c2eps ["A.mp3"]).1)
    ∧ (reconcile true c2eps ["A.mp3"]).1 = [("url2", "B.mp3")]
    ∧ (reconcile true c2eps ["A.mp3"]).2 = [Report.alreadyDownloaded "A.mp3"] := by
  refine ⟨⟨?_, ?_⟩, by decide, ?_⟩
  · exact ((c2_reconciliation true c2eps ["A.mp3"] (by decide)).1 "url2" "B.mp3").mpr
      ⟨by decide, by decide⟩
  · intro hmem
    exact (((c2_reconciliation true c2eps ["A.mp3"] (by decide)).1 "url1" "A.mp3").mp hmem).2
      (by decide)
  · exact (c2_reconciliation true c2eps ["A.mp3"] (by decide)).2

/-! ### Directory listing -/

theorem foldl_append_nil {α : Type} (l : List α) :
    l.foldl (fun acc x => acc ++ [x]) [] = l := by
  suffices h : ∀ (l acc : List α), l.foldl (fun acc x => acc ++ [x]) acc = acc ++ l by
    simpa using h l []
  intro l
  induction l with
  | nil => intro acc; simp
  | cons x xs ih => intro acc; simp [ih]

/-- `map_files` on an existing directory returns its children's names. -/
theorem map_files_ok (fs : FS) (d : Path) (h : pathIsDir fs d = true) :
    map_files fs d = .ok (childNames fs d) := by
  unfold map_files iterdir
  rw [if_pos h]
  exact congrArg Except.ok (foldl_append_nil _)

/-- Claim C10: `map_files` returns the names of all immediate children, including
subdirectories; consequently a subdirectory whose name equals a derived
episode filename makes reconciliation skip that episode. -/
theorem c10_listing_includes_directories (fs : FS) (d : Path) (e : FSEntry)
    (he : e ∈ fs) (hpar : e.parent = d) (hdir : e.isDir = true)
    (hd : pathIsDir fs d = true) (w : Bool) (episodes : List (String × String)) (url : String) :
    ∃ l, map_files fs d = .ok l ∧ e.name ∈ l
      ∧ (url, e.name) ∉ (reconcile w episodes l).1 := by
  have hnm : e.name ∈ childNames fs d := by
    unfold childNames
    exact List.mem_map_of_mem _ (List.mem_filter.mpr ⟨he, by simp [hpar]⟩)
  exact ⟨childNames fs d, map_files_ok fs d hd, hnm,
    fun hmem => reconcile_mem_snd w episodes (childNames fs d) (url, e.name) hmem hnm⟩

/-- Witness for C10: a subdirectory named `X.mp3` is listed and makes the
episode with filename `X.mp3` be skipped. -/
theorem c10_witness :
    ∃ l, map_files c10fs ["P", "Pod"] = .ok l ∧ "X.mp3" ∈ l
      ∧ ("u", "X.mp3") ∉ (reconcile true [("u", "X.mp3")] l).1 :=
  c10_listing_includes_directories c10fs ["P", "Pod"] c10entry (by decide) rfl rfl
    (by decide) true [("u", "X.mp3")] "u"

/-! ### Episode extractor -/

theorem dictFold_append (d A B) : dictFold d (A ++ B) = dictFold (dictFold d A) B := by
  unfold dictFold
  rw [List.foldl_append]

/-- The inner link loop of the extractor is `dictFold` over the entry's
audio-link pairs. -/
theorem links_foldl_eq (episode : Entry) :
    ∀ (links : List Link) (d : List (String × String)),
      links.foldl (fun d link =>
          if link.type = "audio/mpeg" then
            dictInsert d link.href (format_text episode.title ++ ".mp3")
          else d) d
        = dictFold d ((links.filter (fun link => decide (link.type = "audio/mpeg"))).map
            (fun link => (link.href, format_text episode.title ++ ".mp3"))) := by
  intro links
  induction links with
  | nil => intro d; simp [dictFold]
  | cons l ls ih =>
    intro d
    rw [List.foldl_cons]
    by_cases ht : l.type = "audio/mpeg"
    · rw [if_pos ht]
      rw [ih]
      rw [List.filter_cons_of_pos (by simp [ht]), List.map_cons]
      rfl
    · rw [if_neg ht, ih, List.filter_cons_of_neg (by simp [ht])]

/-- The extractor is `dictFold` over the feed's audio-link pairs. -/
theorem generate_eq_dictFold (feed : Feed) :
    generate_podcast_episode_urls feed = dictFold [] (audioPairs feed) := by
  unfold generate_podcast_episode_urls audioPairs
  suffices h : ∀ (entries : List Entry) (d : List (String × String)),
      entries.foldl (fun episode_dict episode =>
        episode.links.foldl (fun d link =>
          if link.type = "audio/mpeg" then
            dictInsert d link.href (format_text episode.title ++ ".mp3")
          else d) episode_dict) d
      = dictFold d ((entries.map linkPairs).flatten) by
    exact h feed.entries []
  intro entries
  induction entries with
  | nil => intro d; simp [dictFold]
  | cons e es ih =>
    intro d
    rw [List.foldl_cons, links_foldl_eq e e.links d, ih, List.map_cons, List.flatten_cons,
      dictFold_append]
    rfl

/-- `dictFold` with duplicate-free keys, all fresh for the accumulator,
appends the pair list. -/
theorem dictFold_fresh (ps : List (String × String)) :
    ∀ d, (ps.map Prod.fst).Nodup → (∀ k ∈ d.map Prod.fst, k ∉ ps.map Prod.fst) →
      dictFold d ps = d ++ ps := by
  induction ps with
  | nil => intro d _ _; simp [dictFold]
  | cons p rest ih =>
    intro d hnd hdisj
    rw [List.map_cons] at hnd
    obtain ⟨hhead, htail⟩ := List.nodup_cons.mp hnd
    have hfresh : p.1 ∉ d.map Prod.fst := fun hk => (hdisj p.1 hk) (by simp)
    show dictFold (dictInsert d p.1 p.2) rest = d ++ p :: rest
    rw [dictInsert_fresh d p.1 p.2 hfresh]
    rw [ih (d ++ [(p.1, p.2)]) htail ?_]
    · simp
    · intro k hk
      rcases List.mem_append.mp (by simpa using hk : k ∈ d.map Prod.fst ++ [p.1]) with h1 | h2
      · intro hr
        exact hdisj k h1 (List.mem_cons_of_mem _ hr)
      · rw [List.mem_singleton.mp h2]
        exact hhead

theorem generate_eq_audioPairs (feed : Feed)
    (h : ((audioPairs feed).map Prod.fst).Nodup) :
    generate_podcast_episode_urls feed = audioPairs feed := by
  rw [generate_eq_dictFold, dictFold_fresh (audioPairs feed) [] h (by simp)]
  simp

theorem audioPairs_mem (feed : Feed) (url fn : String) :
    (url, fn) ∈ audioPairs feed
      ↔ ∃ e ∈ feed.entries, ∃ l ∈ e.links,
          l.type = "audio/mpeg" ∧ l.href = url ∧ fn = format_text e.title ++ ".mp3" := by
  unfold audioPairs linkPairs
  constructor
  · intro hmem
    obtain ⟨L, hL, hpair⟩ := List.mem_flatten.mp hmem
    obtain ⟨e, he, rfl⟩ := List.mem_map.mp hL
    obtain ⟨l, hlf, heq⟩ := List.mem_map.mp hpair
    obtain ⟨hl, ht⟩ := List.mem_filter.mp hlf
    have h1 : l.href = url := congrArg Prod.fst heq
    have h2 : format_text e.title ++ ".mp3" = fn := congrArg Prod.snd heq
    exact ⟨e, he, l, hl, of_decide_eq_true ht, h1, h2.symm⟩
  · rintro ⟨e, he, l, hl, ht, h1, h2⟩
    refine List.mem_flatten.mpr ⟨_, List.mem_map.mpr ⟨e, he, rfl⟩, ?_⟩
    exact List.mem_map.mpr ⟨l, List.mem_filter.mpr ⟨hl, by simp [ht]⟩, by rw [h1, ← h2]⟩

theorem audioPairs_nil (feed : Feed)
    (h : ∀ e ∈ feed.entries, ∀ l ∈ e.links, ¬ l.type = "audio/mpeg") :
    audioPairs feed = [] := by
  unfold audioPairs
  rw [List.flatten_eq_nil_iff]
  rintro L hL
  obtain ⟨e, he, rfl⟩ := List.mem_map.mp hL
  unfold linkPairs
  rw [List.filter_eq_nil_iff.mpr (fun l hl => by simp [h e he l hl])]
  rfl

/-- Claim C3 (amended with a no-collision proviso): when no two audio links of the
feed share an `href`, the extractor returns exactly the pairs
`href ↦ sanitize(title) + ".mp3"` of the audio links, and a feed whose
entries have no audio link yields the empty mapping. -/
theorem c3_extractor (feed : Feed)
    (h : ((audioPairs feed).map Prod.fst).Nodup) :
    (∀ url fn, (url, fn) ∈ generate_podcast_episode_urls feed
        ↔ ∃ e ∈ feed.entries, ∃ l ∈ e.links,
            l.type = "audio/mpeg" ∧ l.href = url ∧ fn = format_text e.title ++ ".mp3")
    ∧ ((∀ e ∈ feed.entries, ∀ l ∈ e.links, ¬ l.type = "audio/mpeg")
        → generate_podcast_episode_urls feed = []) := by
  constructor
  · intro url fn
    rw [generate_eq_audioPairs feed h]
    exact audioPairs_mem feed url fn
  · intro hno
    rw [generate_eq_audioPairs feed h, audioPairs_nil feed hno]

/-- Claim C3 counterexample: in `collisionFeed`, entry `A`'s audio link demands the
pair `(u, A.mp3)`, but the returned mapping contains only `(u, B.mp3)` —
the later entry overwrote the earlier one at the shared URL key. -/
theorem c3_counterexample :
    (∃ e ∈ collisionFeed.entries, ∃ l ∈ e.links,
        l.type = "audio/mpeg" ∧ l.href = "u" ∧ format_text e.title ++ ".mp3" = "A.mp3")
    ∧ ("u", "A.mp3") ∉ generate_podcast_episode_urls collisionFeed
    ∧ generate_podcast_episode_urls collisionFeed = [("u", "B.mp3")] := by
  decide

/-- Witness for C3 on a feed with distinct audio URLs. -/
theorem c3_witness :
    ("u", "E.mp3") ∈ generate_podcast_episode_urls simpleFeed :=
  ((c3_extractor simpleFeed (by decide)).1 "u" "E.mp3").mpr
    ⟨⟨"E", [⟨"text/html", "h"⟩, ⟨"audio/mpeg", "u"⟩]⟩, by decide,
      ⟨"audio/mpeg", "u"⟩, by decide, rfl, rfl, by decide⟩

/-! ### Run-level behaviour: cancellation, error propagation -/

/-- Claim C1: the downloader never consults the cancellation flag — the result is
the same for any flag value, and with the flag set before the download a
two-chunk (2 × 32 KiB) response is still written in full, so more than one
chunk (65536 bytes > 32768) is written after the flag was observed set. -/
theorem c1_cancellation_flag_ignored :
    (∀ (world : World) (flag : Bool) (fs : FS) (p : Path) (fn url : String),
        download_episode world flag fs p fn url = download_episode world true fs p fn url)
    ∧ (download_episode c1World true c1FS ["P", "Pod", "ep.mp3"] "ep.mp3" "u").2
        = .ok (c1FS ++ [⟨["P", "Pod"], "ep.mp3", false, [32768, 32768]⟩])
    ∧ 32768 + 32768 > 32768 :=
  ⟨fun _ _ _ _ _ _ => rfl, rfl, by decide⟩

/-- Claim C5: with the podcast directory's parent absent, creation fails and is
reported (`make_directory` catches and prints), but the very next step —
`map_files` listing the still-absent directory — raises an uncaught
`FileNotFoundError` that aborts the run; the remaining feed `g` is never
processed and no download stage is reached. -/
theorem c5_creation_failure_then_listing_crash :
    processPodcast c5World false ["P"] false "f" ⟨[], [], none⟩
        = (⟨[], [Report.dirParentMissing ["P", "T"]], some "T"⟩, some PyErr.fileNotFound)
    ∧ runFeeds c5World false ["P"] false ["f", "g"] ⟨[], [], none⟩
        = (⟨[], [Report.dirParentMissing ["P", "T"]], some "T"⟩, some PyErr.fileNotFound) := by
  decide

/-- Claim C6 (amended): a response without a `Content-Length` header makes
`download_episode` raise `KeyError`; the download loop and the feed loop
both propagate an uncaught exception immediately, so the whole run stops
and no remaining episode or podcast is processed. -/
theorem c6_missing_length_aborts_run :
    (∀ (world : World) (flag : Bool) (fs : FS) (p : Path) (fn url : String)
        (resp : HTTPResponse),
        requests_get world url = .ok resp → resp.contentLength = none →
        (download_episode world flag fs p fn url).2 = .error PyErr.keyError)
    ∧ (∀ (world : World) (flag : Bool) (parent : Path) (w : Bool) (podcast : String)
        (rest : List String) (st st' : LoopState) (e : PyErr),
        processPodcast world flag parent w podcast st = (st', some e) →
        runFeeds world flag parent w (podcast :: rest) st = (st', some e))
    ∧ (∀ (world : World) (flag : Bool) (p : Path) (item : String × String)
        (rest : List (String × String)) (st : LoopState) (rs : List Report) (e : PyErr),
        download_episode world flag st.fs (p ++ [item.2]) item.2 item.1 = (rs, .error e) →
        downloadLoop world flag p (item :: rest) st
          = ({ st with reports := st.reports ++ rs }, some e)) := by
  refine ⟨?_, ?_, ?_⟩
  · intro world flag fs p fn url resp hget hcl
    simp [download_episode, hget, hcl]
  · intro world flag parent w podcast rest st st' e h
    simp only [runFeeds]
    rw [h]
  · intro world flag p item rest st rs e h
    simp only [downloadLoop]
    rw [h]

/-- Witness for C6 at the concrete fixture: the first episode's download
raises `KeyError` and the run over `[f, gone]` stops at that point. -/
theorem c6_witness :
    (download_episode c6World false fsPT ["P", "T", "E1.mp3"] "E1.mp3" "u1").2
        = .error PyErr.keyError
    ∧ runFeeds c6World false ["P"] false ["f", "gone"] ⟨fsPT, [], none⟩
        = (⟨fsPT, [Report.downloading "E1.mp3"], some "T"⟩, some PyErr.keyError) := by
  constructor
  · exact c6_missing_length_aborts_run.1 c6World false fsPT ["P", "T", "E1.mp3"] "E1.mp3" "u1"
      ⟨none, [1]⟩ rfl rfl
  · exact c6_missing_length_aborts_run.2.1 c6World false ["P"] false "f" ["gone"]
      ⟨fsPT, [], none⟩ ⟨fsPT, [Report.downloading "E1.mp3"], some "T"⟩ PyErr.keyError
      (by decide)

/-- Claim C6 counterexample to the claim as stated: the missing header is not
contained to the single download — the run ends with an uncaught `KeyError`
and the second episode `E2.mp3` is never written. -/
theorem c6_counterexample :
    runFeeds c6World false ["P"] false ["f"] ⟨fsPT, [], none⟩
        = (⟨fsPT, [Report.downloading "E1.mp3"], some "T"⟩, some PyErr.keyError)
    ∧ fileContent fsPT ["P", "T", "E2.mp3"] = none := by
  decide

/-- Claim C7: a feed whose title is missing is reported but not skipped.  On its
first occurrence the run crashes with `NameError` (unbound
`podcast_directory_name`); after a previous feed bound the variable, the
titleless feed `b` is processed under the previous feed's directory `T1`
(its episode lands in `P/T1/Eb.mp3`).  Only the `feed is None` path skips
and continues, as shown by the `zzz` conjunct. -/
theorem c7_missing_title_not_skipped :
    runFeeds c7World false ["P"] false ["b"] ⟨fsP, [], none⟩
        = (⟨fsP, [Report.feedKeyError "b"], none⟩, some PyErr.nameError)
    ∧ (runFeeds c7World false ["P"] false ["a", "b"] ⟨fsP, [], none⟩).2 = none
    ∧ fileContent (runFeeds c7World false ["P"] false ["a", "b"] ⟨fsP, [], none⟩).1.fs
        ["P", "T1", "Eb.mp3"] = some [5]
    ∧ processPodcast c7World false ["P"] false "zzz" ⟨fsP, [], none⟩
        = (⟨fsP, [Report.malformedFeed "zzz"], none⟩, none) := by
  decide

/-- Claim C8 (amended): when the OPML import fails to parse, the failure is
reported once and no fallback to the default list happens, but the run does
not proceed as a clean no-op: iterating the `None` source list raises an
uncaught `TypeError` that terminates the run before any feed is processed. -/
theorem c8_opml_failure_crashes_run (world : World) (flag : Bool) (fs : FS)
    (parent : Path) (w : Bool)
    (hdir : check_directory fs parent = true) (hopml : world.opmlOutline = none) :
    main world flag fs parent w true
      = .run ⟨fs, [Report.opmlError], none⟩ (some PyErr.typeError) := by
  simp [main, parse_opml, hdir, hopml]

/-- Witness for C8 at the concrete fixture. -/
theorem c8_witness :
    main c8World false fsP ["P"] false true
      = .run ⟨fsP, [Report.opmlError], none⟩ (some PyErr.typeError) :=
  c8_opml_failure_crashes_run c8World false fsP ["P"] false (by decide) rfl

/-- Claim C8 counterexample to the claim as stated: the run ends with an uncaught
`TypeError` rather than proceeding as a crash-free no-op. -/
theorem c8_counterexample :
    main c8World false fsP ["P"] false true
      = .run ⟨fsP, [Report.opmlError], none⟩ (some PyErr.typeError) := by
  decide

end Podcast
